import Mathlib

/-!
  Shallow embedding of the stock/inventory reconciliation logic of the
  repository (a React + Supabase application).  The persistent store is
  modelled as lists of rows; each UI handler that mutates the store is
  translated into a pure function from the store (plus its inputs) to the
  updated store and an operation result.  Machine integers of the database
  (INTEGER columns) are modelled as Int, timestamps as Int milliseconds.

  Fallible store calls: the handlers that the claims examine under store
  failure are parametrised by one Bool per store call they issue, in the
  call order of the source (true = that call fails).  Passing false
  everywhere gives the failure-free execution.
-/

namespace Stock

/-- Row of the stock_items table (001_initial_schema.sql). -/
structure StockItem where
  id : Nat
  name : String
  type : String
  quantity : Int
  deriving Repr, DecidableEq

/-- One line of a request: the RequestItem interface of
RequestManagement.tsx. -/
structure RequestLine where
  item_id : Nat
  quantity : Int
  item_name : String
  deriving Repr, DecidableEq

/-- Request status column, CHECK (status IN (pending, approved, rejected)). -/
inductive ReqStatus where
  | pending
  | approved
  | rejected
  deriving Repr, DecidableEq

/-- Row of the requests table. -/
structure Request where
  id : Nat
  user_id : Nat
  items : List RequestLine
  status : ReqStatus
  admin_notes : Option String
  deriving Repr, DecidableEq

/-- Row of the issued_items table. -/
structure IssuedItem where
  id : Nat
  item_id : Nat
  user_id : Nat
  request_id : Option Nat
  quantity_issued : Int
  issued_date : Int
  return_due : Int
  returned : Bool
  return_date : Option Int
  admin_notes : Option String
  issued_to : Option String
  deriving Repr, DecidableEq

/-- Row of the item_transfers table (011 migration). -/
structure ItemTransfer where
  issued_item_id : Nat
  from_user_id : Nat
  to_user_id : Nat
  notes : Option String
  deriving Repr, DecidableEq

/-- Row of the discarded_items table (011 migration). -/
structure DiscardedItem where
  item_id : Nat
  quantity_discarded : Int
  reason : String
  discarded_by : Option Nat
  notes : Option String
  deriving Repr, DecidableEq

/-- Row of the purchase_history table (006 migration). -/
structure PurchaseRow where
  item_id : Nat
  purchase_vendor : Option String
  quantity_added : Int
  notes : Option String
  deriving Repr, DecidableEq

/-- The persistent store: one list of rows per table the core touches. -/
structure Store where
  stock_items : List StockItem
  requests : List Request
  issued_items : List IssuedItem
  item_transfers : List ItemTransfer
  discarded_items : List DiscardedItem
  purchase_history : List PurchaseRow
  deriving Repr, DecidableEq

/-- Outcome of a handler, as far as the user-visible toast and the refusal
to mutate distinguish them. -/
inductive OpResult where
  | ok
  | notFound
  | insufficientStock (itemName : String) (available requested : Int)
  | invalidState (msg : String)
  | storeFailure
  deriving Repr, DecidableEq

/-- select(...).eq(id, itemId).single() on stock_items. -/
def findStockItem (s : Store) (itemId : Nat) : Option StockItem :=
  s.stock_items.find? (fun it => it.id == itemId)

/-- update({quantity}).eq(id, itemId) on stock_items. -/
def updateStockQuantity (s : Store) (itemId : Nat) (q : Int) : Store :=
  { s with stock_items :=
      s.stock_items.map (fun it => if it.id == itemId then { it with quantity := q } else it) }

/-- Quantity of the (first) stock row with the given id, 0 if absent. -/
def stockQty (s : Store) (itemId : Nat) : Int :=
  match findStockItem s itemId with
  | some it => it.quantity
  | none => 0

/-- Outcome of the availability-check loop of handleUpdateRequestStatus. -/
inductive CheckOutcome where
  | allOk
  | missing
  | insufficient (l : RequestLine) (available : Int)
  deriving Repr, DecidableEq

/-- The first loop of the approved branch of handleUpdateRequestStatus
(RequestManagement.tsx:133-146): fetch each line's stock row, report the
first line whose requested quantity exceeds the stored quantity. -/
def checkLines (s : Store) : List RequestLine → CheckOutcome
  | [] => .allOk
  | l :: rest =>
    match findStockItem s l.item_id with
    | none => .missing
    | some it =>
      if it.quantity < l.quantity then .insufficient l it.quantity
      else checkLines s rest

/-- The second loop of the approved branch
(RequestManagement.tsx:149-177): per line, read the current quantity and
write current minus requested.  A failing fetch returns with the earlier
deductions already committed (Bool = whether the loop completed). -/
def deductLines (s : Store) : List RequestLine → Store × Bool
  | [] => (s, true)
  | l :: rest =>
    match findStockItem s l.item_id with
    | none => (s, false)
    | some it => deductLines (updateStockQuantity s l.item_id (it.quantity - l.quantity)) rest

/-- update({status, admin_notes, items?}).eq(id, requestId) on requests
(RequestManagement.tsx:181-193). -/
def updateRequestRow (s : Store) (requestId : Nat) (status : ReqStatus)
    (adminNotes : Option String) (items : Option (List RequestLine)) : Store :=
  { s with requests := s.requests.map (fun r =>
      if r.id == requestId then
        { r with status := status, admin_notes := adminNotes,
                 items := match items with | some its => its | none => r.items }
      else r) }

/-- handleUpdateRequestStatus (RequestManagement.tsx:111-203), failure-free
store: fetch the request, on approval run the check loop then the deduct
loop, finally write status and notes (and the override items when given). -/
def handleUpdateRequestStatus (s : Store) (requestId : Nat) (status : ReqStatus)
    (adminNotes : Option String) (items : Option (List RequestLine)) : Store × OpResult :=
  match s.requests.find? (fun r => r.id == requestId) with
  | none => (s, .notFound)
  | some req =>
    let itemsToProcess := match items with | some its => its | none => req.items
    match status with
    | .approved =>
      match checkLines s itemsToProcess with
      | .missing => (s, .storeFailure)
      | .insufficient l avail => (s, .insufficientStock l.item_name avail l.quantity)
      | .allOk =>
        match deductLines s itemsToProcess with
        | (s2, true) => (updateRequestRow s2 requestId status adminNotes items, .ok)
        | (s2, false) => (s2, .storeFailure)
    | _ => (updateRequestRow s requestId status adminNotes items, .ok)

/-- Milliseconds per day. -/
def msPerDay : Int := 86400000

/-- The issued_items row handleIssueItems builds from one request line
(RequestManagement.tsx:212-220), with the database-generated primary key
supplied alongside the line. -/
def mkIssuedRow (req : Request) (returnDays : Int) (notes issuedTo : String)
    (now : Int) (p : RequestLine × Nat) : IssuedItem :=
  { id := p.2, item_id := p.1.item_id, user_id := req.user_id,
    request_id := some req.id, quantity_issued := p.1.quantity,
    issued_date := now, return_due := now + returnDays * msPerDay,
    returned := false, return_date := none,
    admin_notes := some notes, issued_to := some issuedTo }

/-- handleIssueItems (RequestManagement.tsx:205-236): one issued_items row
per request line, return_due = now + returnDays, stock untouched.  The
database-generated primary keys are supplied as newIds. -/
def handleIssueItems (s : Store) (req : Request) (returnDays : Int)
    (notes issuedTo : String) (now : Int) (newIds : List Nat) : Store :=
  { s with issued_items := s.issued_items ++
      (req.items.zip newIds).map (mkIssuedRow req returnDays notes issuedTo now) }

/-- handleReturnItem (IssuedItemsManagement.tsx:90-143).  Store calls in
order: f0 fetch issued row, f1 update issued row, f2 fetch stock row,
f3 update stock row.  A failure of f2 or f3 is only logged by the source:
the handler still reports success with the returned flag already set. -/
def handleReturnItem (s : Store) (itemId : Nat) (returnNotes : Option String)
    (now : Int) (f0 f1 f2 f3 : Bool) : Store × OpResult :=
  if f0 then (s, .storeFailure) else
  match s.issued_items.find? (fun it => it.id == itemId) with
  | none => (s, .storeFailure)
  | some issuedItem =>
    if f1 then (s, .storeFailure) else
    let s1 : Store := { s with issued_items := s.issued_items.map (fun it =>
        if it.id == itemId then
          { it with returned := true, return_date := some now, admin_notes := returnNotes }
        else it) }
    if f2 then (s1, .ok) else
    match findStockItem s1 issuedItem.item_id with
    | none => (s1, .ok)
    | some currentItem =>
      if f3 then (s1, .ok)
      else (updateStockQuantity s1 issuedItem.item_id
              (currentItem.quantity + issuedItem.quantity_issued), .ok)

/-- handleTransferItem (MyItems.tsx:99-145).  Store calls in order:
f0 fetch issued row, f1 update its holder, f2 insert the audit row. -/
def handleTransferItem (s : Store) (issuedItemId : Nat) (profileId toUserId : Nat)
    (notes : Option String) (f0 f1 f2 : Bool) : Store × OpResult :=
  if f0 then (s, .storeFailure) else
  match s.issued_items.find? (fun it => it.id == issuedItemId) with
  | none => (s, .storeFailure)
  | some issuedItem =>
    if issuedItem.returned then (s, .invalidState "Cannot transfer returned items")
    else if f1 then (s, .storeFailure)
    else
      let s1 : Store := { s with issued_items := s.issued_items.map (fun it =>
          if it.id == issuedItemId then { it with user_id := toUserId } else it) }
      if f2 then (s1, .storeFailure)
      else ({ s1 with item_transfers := s1.item_transfers ++
               [{ issued_item_id := issuedItemId, from_user_id := profileId,
                  to_user_id := toUserId, notes := notes }] }, .ok)

/-- handleRestockItem (part_005:182-237).  Store calls in order: f0 fetch
stock row, f1 update quantity, f2 the fire-and-forget purchase_history
insert whose failure is swallowed by the source. -/
def handleRestockItem (s : Store) (itemId : Nat) (quantityToAdd : Int)
    (purchaseVendor notes : Option String) (f0 f1 f2 : Bool) : Store × OpResult :=
  if f0 then (s, .storeFailure) else
  match findStockItem s itemId with
  | none => (s, .storeFailure)
  | some currentItem =>
    if f1 then (s, .storeFailure)
    else
      let s1 := updateStockQuantity s itemId (currentItem.quantity + quantityToAdd)
      if f2 then (s1, .ok)
      else ({ s1 with purchase_history := s1.purchase_history ++
               [{ item_id := itemId, purchase_vendor := purchaseVendor,
                  quantity_added := quantityToAdd, notes := notes }] }, .ok)

/-- handleUpdateItem (part_005:133-161): the admin stock-edit form writes
name, type, quantity (and more) directly by item id, with no Ledger
mediation. -/
def handleUpdateItem (s : Store) (editingItemId : Nat) (name ty : String)
    (quantity : Int) : Store :=
  { s with stock_items := s.stock_items.map (fun it =>
      if it.id == editingItemId then { it with name := name, type := ty, quantity := quantity }
      else it) }

/-- submitRequest (part_007:128-163): refuse an empty cart, otherwise
insert one pending request with the cart lines. -/
def submitRequest (s : Store) (profileId : Nat) (cartLines : List RequestLine)
    (newRequestId : Nat) : Store × OpResult :=
  if cartLines.isEmpty then (s, .invalidState "Your cart is empty")
  else ({ s with requests := s.requests ++
          [{ id := newRequestId, user_id := profileId, items := cartLines,
             status := .pending, admin_notes := none }] }, .ok)

/-- date-fns differenceInDays on UTC millisecond timestamps: whole-day
difference truncated toward zero (DST is not modelled). -/
def differenceInDays (dateLeft dateRight : Int) : Int :=
  (dateLeft - dateRight).tdiv msPerDay

/-- The overdue flag computed in fetchIssuedItems
(IssuedItemsManagement.tsx:54) and fetchMyIssuedItems (MyItems.tsx:61):
not returned and now strictly after return_due. -/
def isOverdue (now : Int) (item : IssuedItem) : Bool :=
  !item.returned && decide (item.return_due < now)

/-- The days-overdue value computed right below it
(IssuedItemsManagement.tsx:55, MyItems.tsx:62). -/
def daysOverdue (now : Int) (item : IssuedItem) : Int :=
  if isOverdue now item then differenceInDays now item.return_due else 0

/-- Sum of quantity_issued over the non-returned issued rows of one item:
the reduce in calculateAvailableStock (part_010:47). -/
def totalIssuedFor (s : Store) (itemId : Nat) : Int :=
  (s.issued_items.filter (fun it => it.item_id == itemId && !it.returned)).foldl
    (fun sum it => sum + it.quantity_issued) 0

/-- calculateAvailableStock (part_010:27-55): max 0 (quantity - total
issued); any store error makes the source return 0, so a missing item
yields 0. -/
def calculateAvailableStock (s : Store) (itemId : Nat) : Int :=
  match findStockItem s itemId with
  | none => 0
  | some stockItem => max 0 (stockItem.quantity - totalIssuedFor s itemId)

/-- Entry of the list built by getStockItemsWithAvailable. -/
structure StockItemWithAvailable where
  item : StockItem
  available_quantity : Int
  issued_quantity : Int
  deriving Repr, DecidableEq

/-- The issuedByItem accumulation of getStockItemsWithAvailable
(part_010:79-82), read back at one key. -/
def issuedByItemLookup (rows : List IssuedItem) (itemId : Nat) : Int :=
  rows.foldl (fun acc it => if it.item_id == itemId then acc + it.quantity_issued else acc) 0

/-- getStockItemsWithAvailable (part_010:60-101): every stock item paired
with max 0 (quantity - issued quantity over non-returned rows). -/
def getStockItemsWithAvailable (s : Store) : List StockItemWithAvailable :=
  let notReturned := s.issued_items.filter (fun it => !it.returned)
  s.stock_items.map (fun item =>
    let issuedQuantity := issuedByItemLookup notReturned item.id
    { item := item,
      available_quantity := max 0 (item.quantity - issuedQuantity),
      issued_quantity := issuedQuantity })

/-- Modelled from the spec: the discard mutation of section 4.1
(discard(itemId, quantity, reason, byUser, notes)) is absent from src/ --
only the discarded_items DDL (011 migration) and the read-only viewer
DiscardedItems.tsx are present.  Per the spec it requires
0 < quantity <= current quantity, else fails with InsufficientStock;
otherwise it performs the deduction and appends one DiscardedItem audit
row. -/
def discardStock (s : Store) (itemId : Nat) (quantity : Int) (reason : String)
    (byUser : Option Nat) (notes : Option String) : Store × OpResult :=
  match findStockItem s itemId with
  | none => (s, .notFound)
  | some it =>
    if quantity ≤ 0 ∨ it.quantity < quantity then
      (s, .insufficientStock it.name it.quantity quantity)
    else
      ({ updateStockQuantity s itemId (it.quantity - quantity) with
         discarded_items := s.discarded_items ++
           [{ item_id := itemId, quantity_discarded := quantity, reason := reason,
              discarded_by := byUser, notes := notes }] }, .ok)

/-! ## Generic list helpers -/

/-- A map that preserves the value of the tested predicate commutes with
find?. -/
theorem find?_map_comm {α : Type} (f : α → α) (p : α → Bool) (l : List α)
    (hf : ∀ a, p (f a) = p a) :
    (l.map f).find? p = (l.find? p).map f := by
  induction l with
  | nil => rfl
  | cons a t ih =>
    cases h : p a with
    | true => simp [List.find?_cons, hf a, h]
    | false => simpa [List.find?_cons, hf a, h] using ih

/-- In a list whose ids are Nodup, find? by the id of a member returns
that member. -/
theorem find?_id_nodup {α : Type} (idOf : α → Nat) (l : List α) (r : α)
    (hnd : (l.map idOf).Nodup) (hr : r ∈ l) :
    l.find? (fun a => idOf a == idOf r) = some r := by
  induction l with
  | nil => cases hr
  | cons a t ih =>
    rw [List.map_cons, List.nodup_cons] at hnd
    rcases List.mem_cons.mp hr with rfl | hr
    · simp [List.find?_cons]
    · have hne : ¬ (idOf a == idOf r) := by
        have : idOf r ∈ t.map idOf := List.mem_map_of_mem idOf hr
        simp only [beq_iff_eq]
        intro he
        exact hnd.1 (he ▸ this)
      simp only [List.find?_cons, hne]
      exact ih hnd.2 hr

/-! ## Basic store lemmas -/

theorem stockQty_of_find {s : Store} {i : Nat} {it : StockItem}
    (h : findStockItem s i = some it) : stockQty s i = it.quantity := by
  simp [stockQty, h]

theorem findStockItem_update (s : Store) (i : Nat) (q : Int) (j : Nat) :
    findStockItem (updateStockQuantity s i q) j =
      (findStockItem s j).map
        (fun it => if it.id == i then { it with quantity := q } else it) := by
  unfold findStockItem updateStockQuantity
  exact find?_map_comm _ _ _ (by intro a; by_cases h : a.id == i <;> simp [h])

theorem findStockItem_update_isSome (s : Store) (i : Nat) (q : Int) (j : Nat) :
    (findStockItem (updateStockQuantity s i q) j).isSome
      = (findStockItem s j).isSome := by
  rw [findStockItem_update]; cases findStockItem s j <;> simp

theorem stockQty_update (s : Store) (i : Nat) (q : Int) (j : Nat)
    (h : (findStockItem s i).isSome) :
    stockQty (updateStockQuantity s i q) j = if j = i then q else stockQty s j := by
  by_cases hji : j = i
  · subst hji
    rcases Option.isSome_iff_exists.mp h with ⟨it, hit⟩
    have hit' : s.stock_items.find? (fun a => a.id == j) = some it := hit
    have hid : it.id = j := by simpa using List.find?_some hit'
    unfold stockQty
    rw [findStockItem_update, hit]
    simp [hid]
  · unfold stockQty
    rw [findStockItem_update]
    cases hfj : findStockItem s j with
    | none => simp [hji]
    | some itj =>
      have hfj' : s.stock_items.find? (fun a => a.id == j) = some itj := hfj
      have hid : itj.id = j := by simpa using List.find?_some hfj'
      have hnot : itj.id ≠ i := by omega
      simp [hji, hnot]

/-- Total quantity a line list asks of one stock item. -/
def sumLinesFor (itemId : Nat) : List RequestLine → Int
  | [] => 0
  | l :: rest => (if l.item_id = itemId then l.quantity else 0) + sumLinesFor itemId rest

/-! ## Check and deduct loop lemmas -/

theorem checkLines_allOk (lines : List RequestLine) (s : Store)
    (hex : ∀ l ∈ lines, (findStockItem s l.item_id).isSome)
    (hava : ∀ l ∈ lines, l.quantity ≤ stockQty s l.item_id) :
    checkLines s lines = .allOk := by
  induction lines with
  | nil => rfl
  | cons l rest ih =>
    rcases Option.isSome_iff_exists.mp (hex l (by simp)) with ⟨it, hit⟩
    have hq := stockQty_of_find hit
    have hge : ¬ it.quantity < l.quantity := by
      have := hava l (by simp)
      omega
    simp only [checkLines, hit, if_neg hge]
    exact ih (fun x hx => hex x (by simp [hx])) (fun x hx => hava x (by simp [hx]))

theorem checkLines_insufficient (lines : List RequestLine) (s : Store)
    (hex : ∀ l ∈ lines, (findStockItem s l.item_id).isSome)
    (hbad : ∃ l ∈ lines, stockQty s l.item_id < l.quantity) :
    ∃ l ∈ lines, stockQty s l.item_id < l.quantity ∧
      checkLines s lines = .insufficient l (stockQty s l.item_id) := by
  induction lines with
  | nil => simp at hbad
  | cons l rest ih =>
    rcases Option.isSome_iff_exists.mp (hex l (by simp)) with ⟨it, hit⟩
    have hq := stockQty_of_find hit
    by_cases hfirst : it.quantity < l.quantity
    · refine ⟨l, by simp, by omega, ?_⟩
      simp only [checkLines, hit, if_pos hfirst, hq]
    · have hbad' : ∃ x ∈ rest, stockQty s x.item_id < x.quantity := by
        rcases hbad with ⟨x, hx, hxq⟩
        rcases List.mem_cons.mp hx with rfl | hx'
        · omega
        · exact ⟨x, hx', hxq⟩
      obtain ⟨x, hx, hxq, hres⟩ := ih (fun y hy => hex y (by simp [hy])) hbad'
      refine ⟨x, by simp [hx], hxq, ?_⟩
      simpa only [checkLines, hit, if_neg hfirst] using hres

theorem deductLines_spec (lines : List RequestLine) (s : Store)
    (hex : ∀ l ∈ lines, (findStockItem s l.item_id).isSome) :
    (deductLines s lines).2 = true ∧
    (∀ j, stockQty (deductLines s lines).1 j = stockQty s j - sumLinesFor j lines) ∧
    (∀ j, (findStockItem (deductLines s lines).1 j).isSome = (findStockItem s j).isSome) ∧
    (deductLines s lines).1.requests = s.requests ∧
    (deductLines s lines).1.issued_items = s.issued_items := by
  induction lines generalizing s with
  | nil => simp [deductLines, sumLinesFor]
  | cons l rest ih =>
    have hl : (findStockItem s l.item_id).isSome := hex l (by simp)
    rcases Option.isSome_iff_exists.mp hl with ⟨it, hit⟩
    have hq : stockQty s l.item_id = it.quantity := stockQty_of_find hit
    have hred : deductLines s (l :: rest)
        = deductLines (updateStockQuantity s l.item_id (it.quantity - l.quantity)) rest := by
      simp only [deductLines, hit]
    have hex' : ∀ x ∈ rest,
        (findStockItem (updateStockQuantity s l.item_id (it.quantity - l.quantity)) x.item_id).isSome := by
      intro x hx
      rw [findStockItem_update_isSome]
      exact hex x (by simp [hx])
    obtain ⟨h1, h2, h3, h4, h5⟩ :=
      ih (updateStockQuantity s l.item_id (it.quantity - l.quantity)) hex'
    refine ⟨by rw [hred]; exact h1, ?_, ?_, ?_, ?_⟩
    · intro j
      rw [hred, h2 j, stockQty_update s l.item_id _ j hl]
      by_cases hj : j = l.item_id
      · subst hj
        simp only [sumLinesFor]
        norm_num
        omega
      · have hj' : l.item_id ≠ j := fun he => hj he.symm
        simp only [sumLinesFor, if_neg hj, if_neg hj']
        omega
    · intro j
      rw [hred, h3 j, findStockItem_update_isSome]
    · rw [hred, h4]
      rfl
    · rw [hred, h5]
      rfl

/-! ## Claim C1 -/

/-- Claim C1: if a pending request has at least one line whose quantity
exceeds its item's current on-hand quantity (all line items existing),
then approving it fails with InsufficientStock naming an offending line
(its snapshot name, available and requested numbers), the store is
returned entirely unchanged -- so no stock quantity is deducted for any
line -- and the request row is untouched, hence still pending. -/
theorem approve_insufficient_fails_atomically
    (s : Store) (requestId : Nat) (adminNotes : Option String) (req : Request)
    (hreq : s.requests.find? (fun r => r.id == requestId) = some req)
    (_hpend : req.status = .pending)
    (hex : ∀ l ∈ req.items, (findStockItem s l.item_id).isSome)
    (hbad : ∃ l ∈ req.items, stockQty s l.item_id < l.quantity) :
    ∃ l ∈ req.items, stockQty s l.item_id < l.quantity ∧
      handleUpdateRequestStatus s requestId .approved adminNotes none
        = (s, .insufficientStock l.item_name (stockQty s l.item_id) l.quantity) ∧
      (handleUpdateRequestStatus s requestId .approved adminNotes none).1.requests.find?
          (fun r => r.id == requestId) = some req := by
  obtain ⟨l, hl, hlq, hres⟩ := checkLines_insufficient req.items s hex hbad
  refine ⟨l, hl, hlq, ?_, ?_⟩ <;>
    simp [handleUpdateRequestStatus, hreq, hres]

/-- Store for the C1 witness: the quantity=3, request-for-5 scenario of
the spec. -/
def storeC1 : Store :=
  { stock_items := [{ id := 1, name := "Gloves", type := "PPE", quantity := 3 }],
    requests := [{ id := 7, user_id := 2,
                   items := [{ item_id := 1, quantity := 5, item_name := "Gloves" }],
                   status := .pending, admin_notes := none }],
    issued_items := [], item_transfers := [], discarded_items := [],
    purchase_history := [] }

theorem approve_insufficient_fails_atomically_witness :
    ∃ l ∈ ([{ item_id := 1, quantity := 5, item_name := "Gloves" }] : List RequestLine),
      stockQty storeC1 l.item_id < l.quantity ∧
      handleUpdateRequestStatus storeC1 7 .approved none none
        = (storeC1, .insufficientStock l.item_name (stockQty storeC1 l.item_id) l.quantity) ∧
      (handleUpdateRequestStatus storeC1 7 .approved none none).1.requests.find?
          (fun r => r.id == 7)
        = some { id := 7, user_id := 2,
                 items := [{ item_id := 1, quantity := 5, item_name := "Gloves" }],
                 status := .pending, admin_notes := none } :=
  approve_insufficient_fails_atomically storeC1 7 none
    { id := 7, user_id := 2,
      items := [{ item_id := 1, quantity := 5, item_name := "Gloves" }],
      status := .pending, admin_notes := none }
    (by decide) rfl (by decide) ⟨{ item_id := 1, quantity := 5, item_name := "Gloves" }, by simp, by decide⟩

/-! ## markReturned lemmas -/

/-- Failure-free reduction of handleReturnItem once the issued row is
found: flag the row, then credit its item if the stock row is present. -/
theorem handleReturnItem_pure_eq (s : Store) (j : Nat) (notes : Option String)
    (now : Int) (row : IssuedItem)
    (hrow : s.issued_items.find? (fun it => it.id == j) = some row) :
    handleReturnItem s j notes now false false false false =
      (let s1 : Store := { s with issued_items := s.issued_items.map (fun it =>
          if it.id == j then
            { it with returned := true, return_date := some now, admin_notes := notes }
          else it) }
       match findStockItem s row.item_id with
       | none => (s1, .ok)
       | some currentItem =>
         (updateStockQuantity s1 row.item_id
            (currentItem.quantity + row.quantity_issued), .ok)) := by
  simp only [handleReturnItem, hrow]
  rfl

/-- Failure-free behaviour of handleReturnItem: result ok, returned flag
set on the row, the row's item credited by quantity_issued, everything
else untouched.  The source performs no returned-state check. -/
theorem handleReturnItem_spec (s : Store) (j : Nat) (notes : Option String)
    (now : Int) (row : IssuedItem)
    (hrow : s.issued_items.find? (fun it => it.id == j) = some row)
    (hstock : (findStockItem s row.item_id).isSome) :
    (handleReturnItem s j notes now false false false false).2 = .ok ∧
    (handleReturnItem s j notes now false false false false).1.issued_items =
      s.issued_items.map (fun it => if it.id == j then
        { it with returned := true, return_date := some now, admin_notes := notes }
      else it) ∧
    (∀ x, stockQty (handleReturnItem s j notes now false false false false).1 x =
      stockQty s x + (if x = row.item_id then row.quantity_issued else 0)) ∧
    (∀ x, (findStockItem (handleReturnItem s j notes now false false false false).1 x).isSome
       = (findStockItem s x).isSome) ∧
    (handleReturnItem s j notes now false false false false).1.requests = s.requests := by
  rcases Option.isSome_iff_exists.mp hstock with ⟨cur, hcur⟩
  rw [handleReturnItem_pure_eq s j notes now row hrow]
  simp only [hcur]
  set s1 : Store := { s with issued_items := s.issued_items.map (fun it =>
      if it.id == j then
        { it with returned := true, return_date := some now, admin_notes := notes }
      else it) } with hs1
  have hs1find : ∀ x, findStockItem s1 x = findStockItem s x := fun _ => rfl
  have hs1qty : ∀ x, stockQty s1 x = stockQty s x := fun _ => rfl
  have hstock1 : (findStockItem s1 row.item_id).isSome := by rw [hs1find]; exact hstock
  refine ⟨trivial, rfl, ?_, ?_, rfl⟩
  · intro x
    rw [show (updateStockQuantity s1 row.item_id (cur.quantity + row.quantity_issued))
          = updateStockQuantity s1 row.item_id (cur.quantity + row.quantity_issued) from rfl]
    rw [stockQty_update s1 row.item_id _ x hstock1, hs1qty]
    by_cases hx : x = row.item_id
    · subst hx
      simp [stockQty_of_find hcur]
    · simp [hx]
  · intro x
    rw [findStockItem_update_isSome, hs1find]

/-! ## Claim C3 -/

/-- Store for the C3 scenario: one stock item (quantity 5) and one active
issued row of 2 units against it. -/
def storeC3 : Store :=
  { stock_items := [{ id := 1, name := "Mask", type := "PPE", quantity := 5 }],
    requests := [],
    issued_items := [{ id := 10, item_id := 1, user_id := 2, request_id := none,
                       quantity_issued := 2, issued_date := 0, return_due := 7 * msPerDay,
                       returned := false, return_date := none, admin_notes := none,
                       issued_to := none }],
    item_transfers := [], discarded_items := [], purchase_history := [] }

/-- Claim C3 counterexample: marking issued row 10 returned twice does NOT
fail with InvalidState on the second call -- both calls report success --
and the stock is credited twice: quantity goes 5, 7, 9 instead of staying
at 7 after the second call. -/
theorem markReturned_twice_counterexample :
    (handleReturnItem storeC3 10 none 100 false false false false).2 = .ok ∧
    stockQty (handleReturnItem storeC3 10 none 100 false false false false).1 1 = 7 ∧
    (handleReturnItem (handleReturnItem storeC3 10 none 100 false false false false).1
        10 none 200 false false false false).2 = .ok ∧
    stockQty (handleReturnItem (handleReturnItem storeC3 10 none 100 false false false false).1
        10 none 200 false false false false).1 1 = 9 := by
  decide

/-- Claim C3 amended: handleReturnItem performs no returned-state check:
called on an already-returned IssuedItem it reports success again and
credits the item stock by quantity_issued once more, so two calls on the
same record credit the stock twice, not once. -/
theorem markReturned_no_double_return_guard
    (s : Store) (j : Nat) (notes : Option String) (now : Int) (row : IssuedItem)
    (hrow : s.issued_items.find? (fun it => it.id == j) = some row)
    (_hret : row.returned = true)
    (hstock : (findStockItem s row.item_id).isSome) :
    (handleReturnItem s j notes now false false false false).2 = .ok ∧
    stockQty (handleReturnItem s j notes now false false false false).1 row.item_id
      = stockQty s row.item_id + row.quantity_issued := by
  obtain ⟨h1, _, h3, _, _⟩ := handleReturnItem_spec s j notes now row hrow hstock
  exact ⟨h1, by simpa using h3 row.item_id⟩

/-- The store of storeC3 after the first (legitimate) return. -/
def storeC3r : Store :=
  (handleReturnItem storeC3 10 none 100 false false false false).1

theorem markReturned_no_double_return_guard_witness :
    (handleReturnItem storeC3r 10 none 200 false false false false).2 = .ok ∧
    stockQty (handleReturnItem storeC3r 10 none 200 false false false false).1 1
      = stockQty storeC3r 1 + 2 :=
  markReturned_no_double_return_guard storeC3r 10 none 200
    { id := 10, item_id := 1, user_id := 2, request_id := none,
      quantity_issued := 2, issued_date := 0, return_due := 7 * msPerDay,
      returned := true, return_date := some 100, admin_notes := none,
      issued_to := none }
    (by decide) rfl (by decide)

/-! ## Approval and issuance lemmas -/

/-- Total quantity_issued a list of issued rows holds against one item. -/
def sumIssuedFor (itemId : Nat) : List IssuedItem → Int
  | [] => 0
  | r :: rest =>
    (if r.item_id = itemId then r.quantity_issued else 0) + sumIssuedFor itemId rest

/-- Iterated failure-free markReturned over a list of issued row ids. -/
def creditAll (now : Int) (s : Store) (ids : List Nat) : Store :=
  ids.foldl (fun st j => (handleReturnItem st j none now false false false false).1) s

theorem approve_ok_spec (s : Store) (requestId : Nat) (adminNotes : Option String)
    (req : Request)
    (hreq : s.requests.find? (fun r => r.id == requestId) = some req)
    (hex : ∀ l ∈ req.items, (findStockItem s l.item_id).isSome)
    (hava : ∀ l ∈ req.items, l.quantity ≤ stockQty s l.item_id) :
    (handleUpdateRequestStatus s requestId .approved adminNotes none).2 = .ok ∧
    (∀ x, stockQty (handleUpdateRequestStatus s requestId .approved adminNotes none).1 x
        = stockQty s x - sumLinesFor x req.items) ∧
    (∀ x, (findStockItem
        (handleUpdateRequestStatus s requestId .approved adminNotes none).1 x).isSome
        = (findStockItem s x).isSome) ∧
    (handleUpdateRequestStatus s requestId .approved adminNotes none).1.issued_items
        = s.issued_items := by
  have hchk := checkLines_allOk req.items s hex hava
  obtain ⟨h1, h2, h3, h4, h5⟩ := deductLines_spec req.items s hex
  rcases hdl : deductLines s req.items with ⟨d, b⟩
  rw [hdl] at h1 h2 h3 h4 h5
  have hb : b = true := h1
  subst hb
  simp only [handleUpdateRequestStatus, hreq, hchk, hdl]
  exact ⟨trivial, h2, h3, h5⟩

theorem mkRows_map_id (req : Request) (returnDays : Int) (notes issuedTo : String)
    (now : Int) :
    ∀ (lines : List RequestLine) (js : List Nat), js.length = lines.length →
    ((lines.zip js).map (mkIssuedRow req returnDays notes issuedTo now)).map
        (fun r => r.id) = js := by
  intro lines
  induction lines with
  | nil =>
    intro js hlen
    rw [List.length_nil, List.length_eq_zero] at hlen
    simp [hlen]
  | cons l ls ih =>
    intro js hlen
    cases js with
    | nil => simp at hlen
    | cons j js' =>
      simp only [List.zip_cons_cons, List.map_cons, mkIssuedRow, List.cons.injEq]
      refine ⟨?_, ?_⟩
      · first | rfl | trivial
      · exact ih js' (by simpa using hlen)

theorem mkRows_sumIssued (req : Request) (returnDays : Int) (notes issuedTo : String)
    (now : Int) :
    ∀ (lines : List RequestLine) (js : List Nat) (x : Nat), js.length = lines.length →
    sumIssuedFor x ((lines.zip js).map (mkIssuedRow req returnDays notes issuedTo now))
      = sumLinesFor x lines := by
  intro lines
  induction lines with
  | nil =>
    intro js x hlen
    rw [List.length_nil, List.length_eq_zero] at hlen
    simp [hlen, sumIssuedFor, sumLinesFor]
  | cons l ls ih =>
    intro js x hlen
    cases js with
    | nil => simp at hlen
    | cons j js' =>
      have hih := ih js' x (by simpa using hlen)
      simp only [List.zip_cons_cons, List.map_cons, sumIssuedFor, sumLinesFor, mkIssuedRow]
      rw [show List.zipWith Prod.mk ls js' = ls.zip js' from rfl, hih]

theorem mkRows_mem (req : Request) (returnDays : Int) (notes issuedTo : String)
    (now : Int) (lines : List RequestLine) (js : List Nat) (r : IssuedItem)
    (hr : r ∈ (lines.zip js).map (mkIssuedRow req returnDays notes issuedTo now)) :
    ∃ l ∈ lines, r.item_id = l.item_id := by
  rcases List.mem_map.mp hr with ⟨p, hp, rfl⟩
  exact ⟨p.1, (List.of_mem_zip hp).1, rfl⟩

theorem creditAll_spec (now : Int) (rows : List IssuedItem) (s : Store)
    (hfind : ∀ r ∈ rows, s.issued_items.find? (fun it => it.id == r.id) = some r)
    (hnd : (rows.map (fun r => r.id)).Nodup)
    (hex : ∀ r ∈ rows, (findStockItem s r.item_id).isSome) :
    ∀ x, stockQty (creditAll now s (rows.map (fun r => r.id))) x
        = stockQty s x + sumIssuedFor x rows := by
  induction rows generalizing s with
  | nil => intro x; simp [creditAll, sumIssuedFor]
  | cons r rest ih =>
    have hr := hfind r (by simp)
    have hx := hex r (by simp)
    obtain ⟨-, h2, h3, h4, -⟩ := handleReturnItem_spec s r.id none now r hr hx
    rw [List.map_cons, List.nodup_cons] at hnd
    have hstep : creditAll now s (r.id :: rest.map (fun p => p.id))
        = creditAll now (handleReturnItem s r.id none now false false false false).1
            (rest.map (fun p => p.id)) := rfl
    have hfind' : ∀ p ∈ rest,
        (handleReturnItem s r.id none now false false false false).1.issued_items.find?
          (fun it => it.id == p.id) = some p := by
      intro p hp
      have hpr : (p.id == r.id) = false := by
        simp only [beq_eq_false_iff_ne, ne_eq]
        intro he
        exact hnd.1 (he ▸ List.mem_map_of_mem _ hp)
      rw [h2, find?_map_comm _ _ _ ?hpres, hfind p (by simp [hp])]
      · simp [hpr]
        intro he
        exact absurd he (by simpa using hpr)
      case hpres =>
        intro a
        by_cases h : (a.id == r.id) = true <;> simp [h]
    have hex' : ∀ p ∈ rest,
        (findStockItem (handleReturnItem s r.id none now false false false false).1
          p.item_id).isSome := by
      intro p hp
      rw [h4]
      exact hex p (by simp [hp])
    intro x
    rw [List.map_cons, hstep, ih _ hfind' hnd.2 hex', h3 x]
    simp only [sumIssuedFor]
    by_cases hxr : x = r.item_id
    · subst hxr
      simp only [if_pos rfl]
      omega
    · have : r.item_id ≠ x := fun he => hxr he.symm
      simp only [if_neg hxr, if_neg this]
      omega

/-! ## Claim C2 -/

/-- Claim C2: for a fresh request whose every line the current stock can
cover, submit then approve then issue then markReturned of every issued
row leaves every StockItem quantity at its pre-submit value; along the
way, approve deducts exactly each line quantity (per item, the sum of its
lines), and issue changes no quantity. -/
theorem submit_approve_issue_return_roundtrip
    (s0 : Store) (profileId newReqId : Nat) (lines : List RequestLine)
    (returnDays now : Int) (inotes issuedTo : String) (adminNotes : Option String)
    (newIds : List Nat)
    (hne : lines ≠ [])
    (hreqFresh : ∀ r ∈ s0.requests, r.id ≠ newReqId)
    (hex : ∀ l ∈ lines, (findStockItem s0 l.item_id).isSome)
    (hava : ∀ l ∈ lines, l.quantity ≤ stockQty s0 l.item_id)
    (hlen : newIds.length = lines.length)
    (hndIds : newIds.Nodup)
    (hfreshIds : ∀ it ∈ s0.issued_items, ∀ j ∈ newIds, it.id ≠ j) :
    let reqP : Request := { id := newReqId, user_id := profileId, items := lines,
                            status := .pending, admin_notes := none }
    let reqA : Request := { reqP with status := .approved, admin_notes := adminNotes }
    let s1 := (submitRequest s0 profileId lines newReqId).1
    let s2 := (handleUpdateRequestStatus s1 newReqId .approved adminNotes none).1
    let s3 := handleIssueItems s2 reqA returnDays inotes issuedTo now newIds
    let s4 := creditAll now s3 newIds
    (submitRequest s0 profileId lines newReqId).2 = .ok ∧
    (handleUpdateRequestStatus s1 newReqId .approved adminNotes none).2 = .ok ∧
    (∀ x, stockQty s2 x = stockQty s0 x - sumLinesFor x lines) ∧
    (∀ x, stockQty s3 x = stockQty s2 x) ∧
    (∀ x, stockQty s4 x = stockQty s0 x) := by
  intro reqP reqA s1 s2 s3 s4
  have hne' : lines.isEmpty = false := by
    cases lines with
    | nil => exact absurd rfl hne
    | cons a t => rfl
  have hsub : submitRequest s0 profileId lines newReqId
      = ({ s0 with requests := s0.requests ++ [reqP] }, .ok) := by
    simp [submitRequest, hne', reqP]
  have hs1 : s1 = { s0 with requests := s0.requests ++ [reqP] } := by
    show (submitRequest s0 profileId lines newReqId).1 = _
    rw [hsub]
  have hq1 : ∀ x, stockQty s1 x = stockQty s0 x := by
    intro x; rw [hs1]; rfl
  have hfind1 : ∀ x, findStockItem s1 x = findStockItem s0 x := by
    intro x; rw [hs1]; rfl
  have hiss1 : s1.issued_items = s0.issued_items := by rw [hs1]
  have hfound1 : s1.requests.find? (fun r => r.id == newReqId) = some reqP := by
    rw [hs1]
    show (s0.requests ++ [reqP]).find? (fun r => r.id == newReqId) = some reqP
    rw [List.find?_append]
    have h0 : s0.requests.find? (fun r => r.id == newReqId) = none :=
      List.find?_eq_none.mpr (fun r hr => by simpa using hreqFresh r hr)
    rw [h0]
    simp [reqP]
  have hex1 : ∀ l ∈ reqP.items, (findStockItem s1 l.item_id).isSome := by
    intro l hl
    rw [hfind1]
    exact hex l hl
  have hava1 : ∀ l ∈ reqP.items, l.quantity ≤ stockQty s1 l.item_id := by
    intro l hl
    rw [hq1]
    exact hava l hl
  obtain ⟨hap1, hap2, hap3, hap4⟩ :=
    approve_ok_spec s1 newReqId adminNotes reqP hfound1 hex1 hava1
  have hc3 : ∀ x, stockQty s2 x = stockQty s0 x - sumLinesFor x lines := by
    intro x
    have := hap2 x
    rw [hq1 x] at this
    exact this
  have hc4 : ∀ x, stockQty s3 x = stockQty s2 x := fun _ => rfl
  -- the rows inserted by issue
  have hrows : s3.issued_items = s2.issued_items ++
      (lines.zip newIds).map (mkIssuedRow reqA returnDays inotes issuedTo now) := rfl
  have hrowsid : ((lines.zip newIds).map
      (mkIssuedRow reqA returnDays inotes issuedTo now)).map (fun r => r.id) = newIds :=
    mkRows_map_id reqA returnDays inotes issuedTo now lines newIds hlen
  have hiss2 : s2.issued_items = s0.issued_items := by rw [hap4, hiss1]
  have hfind3 : ∀ r ∈ (lines.zip newIds).map (mkIssuedRow reqA returnDays inotes issuedTo now),
      s3.issued_items.find? (fun it => it.id == r.id) = some r := by
    intro r hr
    have hrid : r.id ∈ newIds := by
      rw [← hrowsid]
      exact List.mem_map_of_mem _ hr
    rw [hrows, List.find?_append, hiss2]
    have h0 : s0.issued_items.find? (fun it => it.id == r.id) = none :=
      List.find?_eq_none.mpr (fun it hit => by simpa using hfreshIds it hit r.id hrid)
    rw [h0]
    have hnd' : (((lines.zip newIds).map
        (mkIssuedRow reqA returnDays inotes issuedTo now)).map (fun r => r.id)).Nodup := by
      rw [hrowsid]; exact hndIds
    have := find?_id_nodup (fun it : IssuedItem => it.id) _ r hnd' hr
    simpa using this
  have hex3 : ∀ r ∈ (lines.zip newIds).map (mkIssuedRow reqA returnDays inotes issuedTo now),
      (findStockItem s3 r.item_id).isSome := by
    intro r hr
    obtain ⟨l, hl, hri⟩ := mkRows_mem reqA returnDays inotes issuedTo now lines newIds r hr
    have : (findStockItem s3 r.item_id).isSome = (findStockItem s1 r.item_id).isSome := hap3 _
    rw [this, hfind1, hri]
    exact hex l hl
  have hnd3 : (((lines.zip newIds).map
      (mkIssuedRow reqA returnDays inotes issuedTo now)).map (fun r => r.id)).Nodup := by
    rw [hrowsid]; exact hndIds
  have hcred := creditAll_spec now
    ((lines.zip newIds).map (mkIssuedRow reqA returnDays inotes issuedTo now)) s3
    hfind3 hnd3 hex3
  have hc5 : ∀ x, stockQty s4 x = stockQty s0 x := by
    intro x
    have h1 : stockQty s4 x = stockQty s3 x + sumIssuedFor x
        ((lines.zip newIds).map (mkIssuedRow reqA returnDays inotes issuedTo now)) := by
      have := hcred x
      rw [hrowsid] at this
      exact this
    rw [h1, mkRows_sumIssued reqA returnDays inotes issuedTo now lines newIds x hlen,
        hc4 x, hc3 x]
    omega
  refine ⟨by rw [hsub], hap1, hc3, hc4, hc5⟩

/-- Store for the C2 witness: the quantity=10, request-for-4 scenario of
the spec. -/
def storeC2 : Store :=
  { stock_items := [{ id := 1, name := "Chairs", type := "Furniture", quantity := 10 }],
    requests := [], issued_items := [], item_transfers := [],
    discarded_items := [], purchase_history := [] }

theorem submit_approve_issue_return_roundtrip_witness :
    stockQty
      (creditAll 0
        (handleIssueItems
          (handleUpdateRequestStatus
            (submitRequest storeC2 2 [{ item_id := 1, quantity := 4, item_name := "Chairs" }] 7).1
            7 .approved none none).1
          { id := 7, user_id := 2,
            items := [{ item_id := 1, quantity := 4, item_name := "Chairs" }],
            status := .approved, admin_notes := none }
          7 "handle with care" "Ward A" 0 [42])
        [42]) 1
      = stockQty storeC2 1 :=
  (submit_approve_issue_return_roundtrip storeC2 2 7
      [{ item_id := 1, quantity := 4, item_name := "Chairs" }]
      7 0 "handle with care" "Ward A" none [42]
      (by decide) (by simp [storeC2]) (by decide) (by decide) rfl (by decide)
      (by simp [storeC2])).2.2.2.2 1

/-! ## Claim C7 -/

/-- Claim C7: transferring a returned IssuedItem fails with the
invalid-state error and mutates nothing; transferring an active one
reports success, reassigns exactly that row's holder to toUser, appends
exactly one item_transfers audit row, and leaves every stock row (hence
every quantity) untouched. -/
theorem transfer_returned_guard_and_effect
    (s : Store) (j profileId toUserId : Nat) (notes : Option String) (row : IssuedItem)
    (hrow : s.issued_items.find? (fun it => it.id == j) = some row) :
    (row.returned = true →
      handleTransferItem s j profileId toUserId notes false false false
        = (s, .invalidState "Cannot transfer returned items")) ∧
    (row.returned = false →
      (handleTransferItem s j profileId toUserId notes false false false).2 = .ok ∧
      (handleTransferItem s j profileId toUserId notes false false false).1.issued_items
        = s.issued_items.map (fun it =>
            if it.id == j then { it with user_id := toUserId } else it) ∧
      (handleTransferItem s j profileId toUserId notes false false false).1.item_transfers
        = s.item_transfers ++ [{ issued_item_id := j, from_user_id := profileId,
                                 to_user_id := toUserId, notes := notes }] ∧
      (handleTransferItem s j profileId toUserId notes false false false).1.stock_items
        = s.stock_items) := by
  constructor
  · intro hret
    simp [handleTransferItem, hrow, hret]
  · intro hret
    simp only [handleTransferItem, hrow, hret]
    exact ⟨rfl, rfl, rfl, rfl⟩

/-- Store for the C7 witness: row 20 already returned, row 21 active. -/
def storeC7 : Store :=
  { stock_items := [{ id := 1, name := "Projector", type := "AV", quantity := 0 }],
    requests := [],
    issued_items :=
      [{ id := 20, item_id := 1, user_id := 2, request_id := none,
         quantity_issued := 1, issued_date := 0, return_due := 7 * msPerDay,
         returned := true, return_date := some 5, admin_notes := none, issued_to := none },
       { id := 21, item_id := 1, user_id := 2, request_id := none,
         quantity_issued := 1, issued_date := 0, return_due := 7 * msPerDay,
         returned := false, return_date := none, admin_notes := none, issued_to := none }],
    item_transfers := [], discarded_items := [], purchase_history := [] }

theorem transfer_returned_guard_and_effect_witness :
    (handleTransferItem storeC7 20 2 3 none false false false
      = (storeC7, .invalidState "Cannot transfer returned items")) ∧
    ((handleTransferItem storeC7 21 2 3 none false false false).2 = .ok ∧
     (handleTransferItem storeC7 21 2 3 none false false false).1.item_transfers
       = storeC7.item_transfers ++ [{ issued_item_id := 21, from_user_id := 2,
                                      to_user_id := 3, notes := none }] ∧
     (handleTransferItem storeC7 21 2 3 none false false false).1.stock_items
       = storeC7.stock_items) :=
  ⟨(transfer_returned_guard_and_effect storeC7 20 2 3 none
      { id := 20, item_id := 1, user_id := 2, request_id := none,
        quantity_issued := 1, issued_date := 0, return_due := 7 * msPerDay,
        returned := true, return_date := some 5, admin_notes := none, issued_to := none }
      (by decide)).1 rfl,
   (fun h => ⟨h.1, h.2.2.1, h.2.2.2⟩)
     ((transfer_returned_guard_and_effect storeC7 21 2 3 none
      { id := 21, item_id := 1, user_id := 2, request_id := none,
        quantity_issued := 1, issued_date := 0, return_due := 7 * msPerDay,
        returned := false, return_date := none, admin_notes := none, issued_to := none }
      (by decide)).2 rfl)⟩

/-! ## Claim C6 -/

/-- Claim C6: for an existing item, restock reports success, sets the
quantity to current + quantityToAdd, and attempts exactly one
purchase_history append; when that append fails (f2 = true) the result
and the quantity update are identical to the success case -- the failure
neither surfaces to the caller nor rolls back the quantity -- and only
the audit row is missing. -/
theorem restock_commits_quantity_append_best_effort
    (s : Store) (itemId : Nat) (quantityToAdd : Int) (vendor notes : Option String)
    (f2 : Bool) (it : StockItem)
    (_hpos : 0 < quantityToAdd)
    (hit : findStockItem s itemId = some it) :
    (handleRestockItem s itemId quantityToAdd vendor notes false false f2).2 = .ok ∧
    (∀ x, stockQty (handleRestockItem s itemId quantityToAdd vendor notes false false f2).1 x
        = if x = itemId then it.quantity + quantityToAdd else stockQty s x) ∧
    (f2 = false →
      (handleRestockItem s itemId quantityToAdd vendor notes false false f2).1.purchase_history
        = s.purchase_history ++ [{ item_id := itemId, purchase_vendor := vendor,
                                   quantity_added := quantityToAdd, notes := notes }]) ∧
    (f2 = true →
      (handleRestockItem s itemId quantityToAdd vendor notes false false f2).1.purchase_history
        = s.purchase_history) ∧
    (handleRestockItem s itemId quantityToAdd vendor notes false false f2).1.stock_items
      = (handleRestockItem s itemId quantityToAdd vendor notes false false false).1.stock_items := by
  have hsome : (findStockItem s itemId).isSome := by rw [hit]; rfl
  have hq : ∀ x, stockQty (updateStockQuantity s itemId (it.quantity + quantityToAdd)) x
      = if x = itemId then it.quantity + quantityToAdd else stockQty s x := by
    intro x
    exact stockQty_update s itemId _ x hsome
  have hredF : handleRestockItem s itemId quantityToAdd vendor notes false false false
      = ({ updateStockQuantity s itemId (it.quantity + quantityToAdd) with
           purchase_history :=
             (updateStockQuantity s itemId (it.quantity + quantityToAdd)).purchase_history
               ++ [{ item_id := itemId, purchase_vendor := vendor,
                     quantity_added := quantityToAdd, notes := notes }] }, .ok) := by
    simp [handleRestockItem, hit]
  have hredT : handleRestockItem s itemId quantityToAdd vendor notes false false true
      = (updateStockQuantity s itemId (it.quantity + quantityToAdd), .ok) := by
    simp [handleRestockItem, hit]
  cases f2 with
  | false =>
    rw [hredF]
    refine ⟨rfl, ?_, fun _ => rfl, fun h => absurd h Bool.false_ne_true, rfl⟩
    exact hq
  | true =>
    rw [hredT, hredF]
    refine ⟨rfl, ?_, fun h => absurd h (by decide), fun _ => rfl, rfl⟩
    exact hq

/-- Store for the C6 witness. -/
def storeC6 : Store :=
  { stock_items := [{ id := 1, name := "Paper", type := "Office", quantity := 5 }],
    requests := [], issued_items := [], item_transfers := [],
    discarded_items := [], purchase_history := [] }

theorem restock_commits_quantity_append_best_effort_witness :
    ((handleRestockItem storeC6 1 3 (some "Acme") none false false true).2 = .ok ∧
     stockQty (handleRestockItem storeC6 1 3 (some "Acme") none false false true).1 1 = 8 ∧
     (handleRestockItem storeC6 1 3 (some "Acme") none false false true).1.purchase_history
       = storeC6.purchase_history) := by
  obtain ⟨h1, h2, -, h4, -⟩ :=
    restock_commits_quantity_append_best_effort storeC6 1 3 (some "Acme") none true
      { id := 1, name := "Paper", type := "Office", quantity := 5 }
      (by decide) (by decide)
  refine ⟨h1, ?_, h4 rfl⟩
  have := h2 1
  simpa using this

/-! ## Claim C5 -/

/-- Store for the C5 counterexample: one stock item and one active issued
row against it. -/
def storeC5 : Store :=
  { stock_items := [{ id := 1, name := "Drill", type := "Tool", quantity := 5 }],
    requests := [],
    issued_items := [{ id := 10, item_id := 1, user_id := 2, request_id := none,
                       quantity_issued := 2, issued_date := 0, return_due := 7 * msPerDay,
                       returned := false, return_date := none, admin_notes := none,
                       issued_to := none }],
    item_transfers := [], discarded_items := [], purchase_history := [] }

/-- Claim C5 counterexample: when the stock fetch of markReturned fails
(third store call), the operation is NOT aborted: the returned flag is
already committed, the stock credit never happens (quantity stays 5
instead of 7), and the handler still reports success.  Partial state
plus a success report, where the claim demands a clean abort. -/
theorem markReturned_store_failure_partial_state_counterexample :
    (handleReturnItem storeC5 10 none 100 false false true false).2 = .ok ∧
    stockQty (handleReturnItem storeC5 10 none 100 false false true false).1 1 = 5 ∧
    ((handleReturnItem storeC5 10 none 100 false false true false).1.issued_items.find?
        (fun it => it.id == 10)).map (fun it => it.returned) = some true := by
  decide

/-- Claim C5 amended: store failures do not abort the multi-step
operations atomically.  (1) In markReturned, once the returned-flag write
succeeded, a failure of the stock fetch leaves the flag committed with no
credit and the handler still reports success.  (2) In transfer, a failure
of the audit-row insert leaves the holder already reassigned while the
handler reports failure.  (3) In restock, the failure of the
purchase_history append neither surfaces nor rolls back the quantity
update -- the one behaviour the original claim already sanctioned. -/
theorem store_failures_leave_partial_state
    (s : Store) (j : Nat) (rnotes : Option String) (now : Int) (row : IssuedItem)
    (hrow : s.issued_items.find? (fun it => it.id == j) = some row)
    (t : Store) (k profileId toUserId : Nat) (tnotes : Option String) (trow : IssuedItem)
    (htrow : t.issued_items.find? (fun it => it.id == k) = some trow)
    (htret : trow.returned = false)
    (u : Store) (itemId : Nat) (qAdd : Int) (vendor unotes : Option String) (uit : StockItem)
    (huit : findStockItem u itemId = some uit) :
    ((handleReturnItem s j rnotes now false false true false).2 = .ok ∧
     (handleReturnItem s j rnotes now false false true false).1.issued_items
        = s.issued_items.map (fun it => if it.id == j then
            { it with returned := true, return_date := some now, admin_notes := rnotes }
          else it) ∧
     (handleReturnItem s j rnotes now false false true false).1.stock_items
        = s.stock_items) ∧
    ((handleTransferItem t k profileId toUserId tnotes false false true).2 = .storeFailure ∧
     (handleTransferItem t k profileId toUserId tnotes false false true).1.issued_items
        = t.issued_items.map (fun it =>
            if it.id == k then { it with user_id := toUserId } else it) ∧
     (handleTransferItem t k profileId toUserId tnotes false false true).1.item_transfers
        = t.item_transfers) ∧
    ((handleRestockItem u itemId qAdd vendor unotes false false true).2 = .ok ∧
     (handleRestockItem u itemId qAdd vendor unotes false false true).1.stock_items
        = (handleRestockItem u itemId qAdd vendor unotes false false false).1.stock_items) := by
  refine ⟨?_, ?_, ?_⟩
  · simp only [handleReturnItem, hrow]
    exact ⟨rfl, rfl, rfl⟩
  · simp only [handleTransferItem, htrow, htret]
    exact ⟨rfl, rfl, rfl⟩
  · simp [handleRestockItem, huit]

theorem store_failures_leave_partial_state_witness :
    ((handleReturnItem storeC5 10 none 100 false false true false).2 = .ok ∧
     (handleReturnItem storeC5 10 none 100 false false true false).1.stock_items
        = storeC5.stock_items) ∧
    ((handleTransferItem storeC5 10 2 3 none false false true).2 = .storeFailure ∧
     (handleTransferItem storeC5 10 2 3 none false false true).1.item_transfers
        = storeC5.item_transfers) := by
  obtain ⟨h1, h2, -⟩ := store_failures_leave_partial_state
    storeC5 10 none 100
    { id := 10, item_id := 1, user_id := 2, request_id := none,
      quantity_issued := 2, issued_date := 0, return_due := 7 * msPerDay,
      returned := false, return_date := none, admin_notes := none, issued_to := none }
    (by decide)
    storeC5 10 2 3 none
    { id := 10, item_id := 1, user_id := 2, request_id := none,
      quantity_issued := 2, issued_date := 0, return_due := 7 * msPerDay,
      returned := false, return_date := none, admin_notes := none, issued_to := none }
    (by decide) rfl
    storeC5 1 3 none none
    { id := 1, name := "Drill", type := "Tool", quantity := 5 }
    (by decide)
  exact ⟨⟨h1.1, h1.2.2⟩, ⟨h2.1, h2.2.2⟩⟩

/-! ## Claim C8 -/

/-- Claim C8: the overdue flag of the issued-items views is true exactly
when the row is not returned and now is strictly after return_due; when
overdue, days_overdue is the floor of (now - return_due) in whole days,
otherwise it is 0; and both are pure functions of (now, item), so
re-evaluating them on the same input gives the same value. -/
theorem overdue_pure_spec (now : Int) (item : IssuedItem) :
    (isOverdue now item = true ↔ (item.returned = false ∧ item.return_due < now)) ∧
    (isOverdue now item = true →
      daysOverdue now item = (now - item.return_due).fdiv msPerDay) ∧
    (isOverdue now item = false → daysOverdue now item = 0) ∧
    isOverdue now item = isOverdue now item ∧
    daysOverdue now item = daysOverdue now item := by
  have hiff : isOverdue now item = true ↔ (item.returned = false ∧ item.return_due < now) := by
    simp [isOverdue]
  refine ⟨hiff, ?_, ?_, rfl, rfl⟩
  · intro h
    have hlt : item.return_due < now := (hiff.mp h).2
    have hnn : 0 ≤ now - item.return_due := by omega
    rw [daysOverdue, if_pos h, differenceInDays,
        Int.fdiv_eq_tdiv hnn (by simp [msPerDay] : (0 : Int) ≤ msPerDay)]
  · intro h
    rw [daysOverdue, h]
    simp

/-- Issued row for the C8 witness: due after 7 days, evaluated at day 10
(the 3-days-overdue scenario of the spec). -/
def itemC8 : IssuedItem :=
  { id := 10, item_id := 1, user_id := 2, request_id := none,
    quantity_issued := 4, issued_date := 0, return_due := 7 * msPerDay,
    returned := false, return_date := none, admin_notes := none, issued_to := none }

theorem overdue_pure_spec_witness :
    isOverdue (10 * msPerDay) itemC8 = true ∧
    daysOverdue (10 * msPerDay) itemC8
      = (10 * msPerDay - itemC8.return_due).fdiv msPerDay := by
  have h := overdue_pure_spec (10 * msPerDay) itemC8
  have h1 : isOverdue (10 * msPerDay) itemC8 = true := h.1.mpr (by decide)
  exact ⟨h1, h.2.1 h1⟩

/-! ## Claim C9 -/

/-- Claim C9 (against the spec-modelled discard, the mutation being
absent from src/): with 0 < quantity <= current, discard reports success,
lowers exactly that item's quantity by the discarded amount, and appends
exactly one DiscardedItem row carrying the given reason; with quantity
exceeding the current stock it fails with InsufficientStock and leaves
the store entirely unchanged. -/
theorem discard_deducts_and_records
    (s : Store) (itemId : Nat) (q : Int) (reason : String)
    (byUser : Option Nat) (notes : Option String) (it : StockItem)
    (hit : findStockItem s itemId = some it) :
    (0 < q → q ≤ it.quantity →
      (discardStock s itemId q reason byUser notes).2 = .ok ∧
      (∀ x, stockQty (discardStock s itemId q reason byUser notes).1 x
          = if x = itemId then it.quantity - q else stockQty s x) ∧
      (discardStock s itemId q reason byUser notes).1.discarded_items
        = s.discarded_items ++ [{ item_id := itemId, quantity_discarded := q,
                                  reason := reason, discarded_by := byUser,
                                  notes := notes }]) ∧
    (it.quantity < q →
      discardStock s itemId q reason byUser notes
        = (s, .insufficientStock it.name it.quantity q)) := by
  have hsome : (findStockItem s itemId).isSome := by rw [hit]; rfl
  constructor
  · intro hpos hle
    have hcond : ¬ (q ≤ 0 ∨ it.quantity < q) := by omega
    simp only [discardStock, hit, if_neg hcond]
    refine ⟨trivial, ?_, trivial⟩
    intro x
    exact stockQty_update s itemId _ x hsome
  · intro hgt
    have hcond : q ≤ 0 ∨ it.quantity < q := Or.inr hgt
    simp only [discardStock, hit, if_pos hcond]

/-- Store for the C9 witness: the quantity=10, discard-2-expired scenario
of the spec. -/
def storeC9 : Store :=
  { stock_items := [{ id := 1, name := "Saline", type := "Medical", quantity := 10 }],
    requests := [], issued_items := [], item_transfers := [],
    discarded_items := [], purchase_history := [] }

theorem discard_deducts_and_records_witness :
    ((discardStock storeC9 1 2 "expired" (some 4) none).2 = .ok ∧
     stockQty (discardStock storeC9 1 2 "expired" (some 4) none).1 1 = 8 ∧
     (discardStock storeC9 1 2 "expired" (some 4) none).1.discarded_items
       = [{ item_id := 1, quantity_discarded := 2, reason := "expired",
            discarded_by := some 4, notes := none }]) ∧
    discardStock storeC9 1 20 "expired" (some 4) none
      = (storeC9, .insufficientStock "Saline" 10 20) := by
  have h := discard_deducts_and_records storeC9 1 2 "expired" (some 4) none
    { id := 1, name := "Saline", type := "Medical", quantity := 10 } (by decide)
  have hgt := discard_deducts_and_records storeC9 1 20 "expired" (some 4) none
    { id := 1, name := "Saline", type := "Medical", quantity := 10 } (by decide)
  obtain ⟨h1, h2, h3⟩ := h.1 (by decide) (by decide)
  refine ⟨⟨h1, ?_, h3⟩, hgt.2 (by decide)⟩
  simpa using h2 1

/-! ## Claim C10 -/

/-- Plain sum of quantity_issued over a list of issued rows. -/
def qtySum : List IssuedItem → Int
  | [] => 0
  | r :: rest => r.quantity_issued + qtySum rest

theorem foldl_qtySum (rows : List IssuedItem) (a : Int) :
    rows.foldl (fun sum it => sum + it.quantity_issued) a = a + qtySum rows := by
  induction rows generalizing a with
  | nil => simp [qtySum]
  | cons r t ih =>
    simp only [List.foldl_cons, qtySum, ih (a + r.quantity_issued)]
    omega

theorem foldl_cond_sum (rows : List IssuedItem) (i : Nat) (a : Int) :
    rows.foldl (fun acc it => if it.item_id == i then acc + it.quantity_issued else acc) a
      = a + sumIssuedFor i rows := by
  induction rows generalizing a with
  | nil => simp [sumIssuedFor]
  | cons r t ih =>
    simp only [List.foldl_cons, sumIssuedFor]
    by_cases h : r.item_id = i
    · rw [if_pos (by simpa using h), if_pos h, ih (a + r.quantity_issued)]
      omega
    · rw [if_neg (by simpa using h), if_neg h, ih a]
      omega

theorem qtySum_filter_eq_sumIssued (rows : List IssuedItem) (i : Nat) :
    qtySum (rows.filter (fun it => it.item_id == i && !it.returned))
      = sumIssuedFor i (rows.filter (fun it => !it.returned)) := by
  induction rows with
  | nil => simp [qtySum, sumIssuedFor]
  | cons r t ih =>
    by_cases hret : r.returned
    · simp [List.filter_cons, hret, ih]
    · by_cases hid : r.item_id = i
      · simp [List.filter_cons, hret, hid, qtySum, sumIssuedFor, ih]
      · have : (r.item_id == i) = false := by simpa using hid
        simp [List.filter_cons, hret, this, hid, sumIssuedFor, ih]

/-- totalIssuedFor (the calculateAvailableStock path) agrees with the
grouped sum over the non-returned rows (the getStockItemsWithAvailable
path). -/
theorem totalIssuedFor_eq_lookup (s : Store) (i : Nat) :
    totalIssuedFor s i
      = issuedByItemLookup (s.issued_items.filter (fun it => !it.returned)) i := by
  unfold totalIssuedFor issuedByItemLookup
  rw [foldl_qtySum, foldl_cond_sum]
  simpa using qtySum_filter_eq_sumIssued s.issued_items i

/-- Claim C10: every entry of the guest stock browser's list carries
available_quantity = max 0 (on-hand quantity - total non-returned issued
quantity of that item), hence never negative; and, when the stock ids are
distinct (the primary-key invariant), calculateAvailableStock computes
the same value for the same item. -/
theorem available_stock_consistent (s : Store) :
    (∀ e ∈ getStockItemsWithAvailable s,
      e.available_quantity = max 0 (e.item.quantity - totalIssuedFor s e.item.id) ∧
      0 ≤ e.available_quantity) ∧
    ((s.stock_items.map (fun it => it.id)).Nodup →
      ∀ e ∈ getStockItemsWithAvailable s,
        calculateAvailableStock s e.item.id = e.available_quantity) := by
  have hmem : ∀ e ∈ getStockItemsWithAvailable s,
      e.item ∈ s.stock_items ∧
      e.available_quantity
        = max 0 (e.item.quantity - totalIssuedFor s e.item.id) := by
    intro e he
    rcases List.mem_map.mp he with ⟨item, hitem, rfl⟩
    refine ⟨hitem, ?_⟩
    simp only [totalIssuedFor_eq_lookup]
  constructor
  · intro e he
    obtain ⟨-, hq⟩ := hmem e he
    exact ⟨hq, hq ▸ le_max_left 0 _⟩
  · intro hnd e he
    obtain ⟨hin, hq⟩ := hmem e he
    have hfind : findStockItem s e.item.id = some e.item := by
      have := find?_id_nodup (fun it : StockItem => it.id) s.stock_items e.item hnd hin
      simpa [findStockItem] using this
    rw [calculateAvailableStock, hfind, hq]

/-- Store for the C10 witness: quantity 10, of which 3 + 4 are out on
active issues and 5 returned. -/
def storeC10 : Store :=
  { stock_items := [{ id := 1, name := "Radio", type := "AV", quantity := 10 }],
    requests := [],
    issued_items :=
      [{ id := 30, item_id := 1, user_id := 2, request_id := none,
         quantity_issued := 3, issued_date := 0, return_due := 7 * msPerDay,
         returned := false, return_date := none, admin_notes := none, issued_to := none },
       { id := 31, item_id := 1, user_id := 3, request_id := none,
         quantity_issued := 4, issued_date := 0, return_due := 7 * msPerDay,
         returned := false, return_date := none, admin_notes := none, issued_to := none },
       { id := 32, item_id := 1, user_id := 3, request_id := none,
         quantity_issued := 5, issued_date := 0, return_due := 7 * msPerDay,
         returned := true, return_date := some 5, admin_notes := none, issued_to := none }],
    item_transfers := [], discarded_items := [], purchase_history := [] }

/-- The single entry the browser computes for storeC10. -/
def entryC10 : StockItemWithAvailable :=
  { item := { id := 1, name := "Radio", type := "AV", quantity := 10 },
    available_quantity := 3, issued_quantity := 7 }

theorem available_stock_consistent_witness :
    (entryC10.available_quantity
        = max 0 (entryC10.item.quantity - totalIssuedFor storeC10 entryC10.item.id) ∧
      0 ≤ entryC10.available_quantity) ∧
    calculateAvailableStock storeC10 entryC10.item.id = entryC10.available_quantity :=
  ⟨(available_stock_consistent storeC10).1 entryC10 (by decide),
   (available_stock_consistent storeC10).2 (by decide) entryC10 (by decide)⟩

/-! ## Claim C4 -/

/-- One Ledger operation of the spec (sec 4.1), carried out exactly as
the source handlers do, viewed for the item the sequence targets:
restock via handleRestockItem, approval deduction via the check loop then
deduct loop of handleUpdateRequestStatus, return credit via
handleReturnItem, discard via the (spec-modelled) discardStock. -/
inductive LedgerOp where
  | restock (quantityToAdd : Int) (vendor notes : Option String)
  | approveDeduct (lines : List RequestLine)
  | returnCredit (issuedItemId : Nat)
  | discard (quantity : Int) (reason : String) (byUser : Option Nat) (notes : Option String)
  deriving Repr, DecidableEq

/-- The store after one Ledger operation (failure-free store calls). -/
def applyLedgerOp (now : Int) (itemId : Nat) (s : Store) : LedgerOp → Store
  | .restock q v n => (handleRestockItem s itemId q v n false false false).1
  | .approveDeduct lines =>
    match checkLines s lines with
    | .allOk => (deductLines s lines).1
    | _ => s
  | .returnCredit j => (handleReturnItem s j none now false false false false).1
  | .discard q r u n => (discardStock s itemId q r u n).1

/-- The store after a sequence of Ledger operations. -/
def applyLedgerOps (now : Int) (itemId : Nat) : Store → List LedgerOp → Store
  | s, [] => s
  | s, op :: rest => applyLedgerOps now itemId (applyLedgerOp now itemId s op) rest

/-- The four deltas one Ledger operation actually applies to the given
item in the given state: (restock, approval-deduction, return-credit,
discard-deduction).  Mirrors the branches of the handlers: an operation
that aborts (missing row, failed availability check) applies 0. -/
def opDelta (itemId : Nat) (s : Store) : LedgerOp → Int × Int × Int × Int
  | .restock q _ _ => (if (findStockItem s itemId).isSome then q else 0, 0, 0, 0)
  | .approveDeduct lines =>
    (0,
     match checkLines s lines with
     | .allOk => sumLinesFor itemId lines
     | _ => 0,
     0, 0)
  | .returnCredit j =>
    (0, 0,
     match s.issued_items.find? (fun it => it.id == j) with
     | none => 0
     | some row =>
       if (findStockItem s row.item_id).isSome then
         (if row.item_id = itemId then row.quantity_issued else 0)
       else 0,
     0)
  | .discard q _ _ _ =>
    (0, 0, 0,
     match findStockItem s itemId with
     | none => 0
     | some it => if q ≤ 0 ∨ it.quantity < q then 0 else q)

/-- The four sums accumulated along a sequence of Ledger operations. -/
def ledgerSums (now : Int) (itemId : Nat) : Store → List LedgerOp → Int × Int × Int × Int
  | _, [] => (0, 0, 0, 0)
  | s, op :: rest =>
    let d := opDelta itemId s op
    let t := ledgerSums now itemId (applyLedgerOp now itemId s op) rest
    (d.1 + t.1, d.2.1 + t.2.1, d.2.2.1 + t.2.2.1, d.2.2.2 + t.2.2.2)

/-- Every line whose check loop found a row exists; in particular an
allOk outcome means every line's item row was found. -/
theorem checkLines_allOk_ex (s : Store) (lines : List RequestLine)
    (h : checkLines s lines = .allOk) :
    ∀ l ∈ lines, (findStockItem s l.item_id).isSome := by
  induction lines with
  | nil => intro l hl; cases hl
  | cons l rest ih =>
    intro x hx
    rcases hfind : findStockItem s l.item_id with - | it
    · simp [checkLines, hfind] at h
    · simp only [checkLines, hfind] at h
      by_cases hlt : it.quantity < l.quantity
      · rw [if_pos hlt] at h
        simp at h
      · rw [if_neg hlt] at h
        rcases List.mem_cons.mp hx with rfl | hx'
        · rw [hfind]; rfl
        · exact ih h x hx'

/-- handleReturnItem leaves every quantity alone when the stock row of
the returned item is absent (the source only logs that fetch error). -/
theorem handleReturnItem_qty_missing (s : Store) (j : Nat) (notes : Option String)
    (now : Int) (row : IssuedItem)
    (hrow : s.issued_items.find? (fun it => it.id == j) = some row)
    (hstock : findStockItem s row.item_id = none) :
    ∀ x, stockQty (handleReturnItem s j notes now false false false false).1 x
      = stockQty s x := by
  intro x
  rw [handleReturnItem_pure_eq s j notes now row hrow]
  simp only [hstock]
  rfl

/-- The effect of one Ledger operation on the tracked item's quantity is
exactly its opDelta, with the sign conventions of the claim. -/
theorem applyLedgerOp_qty (now : Int) (itemId : Nat) (s : Store) (op : LedgerOp) :
    stockQty (applyLedgerOp now itemId s op) itemId
      = stockQty s itemId
        + (opDelta itemId s op).1 - (opDelta itemId s op).2.1
        + (opDelta itemId s op).2.2.1 - (opDelta itemId s op).2.2.2 := by
  cases op with
  | restock q v n =>
    rcases hit : findStockItem s itemId with - | it
    · have hL : applyLedgerOp now itemId s (.restock q v n) = s := by
        simp [applyLedgerOp, handleRestockItem, hit]
      rw [hL]
      simp [opDelta, hit]
    · have hsome : (findStockItem s itemId).isSome := by rw [hit]; rfl
      have hq := stockQty_update s itemId (it.quantity + q) itemId hsome
      rw [if_pos rfl] at hq
      have hL : stockQty (applyLedgerOp now itemId s (.restock q v n)) itemId
          = it.quantity + q := by
        show stockQty (handleRestockItem s itemId q v n false false false).1 itemId
          = it.quantity + q
        have hred : handleRestockItem s itemId q v n false false false
            = ({ updateStockQuantity s itemId (it.quantity + q) with
                 purchase_history :=
                   (updateStockQuantity s itemId (it.quantity + q)).purchase_history
                     ++ [{ item_id := itemId, purchase_vendor := v,
                           quantity_added := q, notes := n }] }, .ok) := by
          simp [handleRestockItem, hit]
        rw [hred]
        exact hq
      rw [hL]
      simp only [opDelta]
      rw [if_pos hsome, stockQty_of_find hit]
      omega
  | approveDeduct lines =>
    cases hchk : checkLines s lines with
    | allOk =>
      have hex := checkLines_allOk_ex s lines hchk
      obtain ⟨-, h2, -, -, -⟩ := deductLines_spec lines s hex
      simp only [applyLedgerOp, opDelta, hchk]
      rw [h2 itemId]
      omega
    | missing =>
      simp only [applyLedgerOp, opDelta, hchk]
      omega
    | insufficient l avail =>
      simp only [applyLedgerOp, opDelta, hchk]
      omega
  | returnCredit j =>
    rcases hrow : s.issued_items.find? (fun it => it.id == j) with - | row
    · have hL : applyLedgerOp now itemId s (.returnCredit j) = s := by
        simp [applyLedgerOp, handleReturnItem, hrow]
      rw [hL]
      simp [opDelta, hrow]
    · rcases hstock : findStockItem s row.item_id with - | cur
      · have hL := handleReturnItem_qty_missing s j none now row hrow hstock
        show stockQty (handleReturnItem s j none now false false false false).1 itemId = _
        rw [hL itemId]
        simp only [opDelta, hrow, hstock]
        simp
      · have hsome : (findStockItem s row.item_id).isSome := by rw [hstock]; rfl
        obtain ⟨-, -, h3, -, -⟩ := handleReturnItem_spec s j none now row hrow hsome
        show stockQty (handleReturnItem s j none now false false false false).1 itemId = _
        rw [h3 itemId]
        simp only [opDelta, hrow]
        rw [if_pos hsome]
        by_cases hri : row.item_id = itemId
        · rw [if_pos hri.symm, if_pos hri]
          omega
        · rw [if_neg (fun he => hri he.symm), if_neg hri]
          omega
  | discard q r u n =>
    rcases hit : findStockItem s itemId with - | it
    · have hL : applyLedgerOp now itemId s (.discard q r u n) = s := by
        simp [applyLedgerOp, discardStock, hit]
      rw [hL]
      simp [opDelta, hit]
    · have hsome : (findStockItem s itemId).isSome := by rw [hit]; rfl
      by_cases hcond : q ≤ 0 ∨ it.quantity < q
      · have hL : applyLedgerOp now itemId s (.discard q r u n) = s := by
          simp only [applyLedgerOp, discardStock, hit, if_pos hcond]
        rw [hL]
        simp only [opDelta, hit]
        rw [if_pos hcond]
        omega
      · have hq := stockQty_update s itemId (it.quantity - q) itemId hsome
        rw [if_pos rfl] at hq
        have hL : stockQty (applyLedgerOp now itemId s (.discard q r u n)) itemId
            = it.quantity - q := by
          show stockQty (discardStock s itemId q r u n).1 itemId = it.quantity - q
          have hred : discardStock s itemId q r u n
              = ({ updateStockQuantity s itemId (it.quantity - q) with
                   discarded_items := s.discarded_items ++
                     [{ item_id := itemId, quantity_discarded := q, reason := r,
                        discarded_by := u, notes := n }] }, .ok) := by
            simp only [discardStock, hit, if_neg hcond]
          rw [hred]
          exact hq
        rw [hL]
        simp only [opDelta, hit]
        rw [if_neg hcond, stockQty_of_find hit]
        omega

/-- Claim C4 amended, identity part: over any sequence of Ledger
operations, the final quantity of the tracked item equals its initial
quantity + the restock sum - the approval-deduction sum + the
return-credit sum - the discard sum, each sum counting the amounts the
operations actually applied. -/
theorem ledger_sum_identity (now : Int) (itemId : Nat) (ops : List LedgerOp) (s : Store) :
    stockQty (applyLedgerOps now itemId s ops) itemId
      = stockQty s itemId
        + (ledgerSums now itemId s ops).1
        - (ledgerSums now itemId s ops).2.1
        + (ledgerSums now itemId s ops).2.2.1
        - (ledgerSums now itemId s ops).2.2.2 := by
  induction ops generalizing s with
  | nil => simp [applyLedgerOps, ledgerSums]
  | cons op rest ih =>
    have hstep := applyLedgerOp_qty now itemId s op
    have htail := ih (applyLedgerOp now itemId s op)
    simp only [applyLedgerOps, ledgerSums]
    rw [htail, hstep]
    ring

/-- Store for the C4 counterexample: one unit of stock and a pending
request whose two lines each ask one unit of the same item. -/
def storeC4 : Store :=
  { stock_items := [{ id := 1, name := "Tape", type := "Consumable", quantity := 1 }],
    requests := [{ id := 5, user_id := 2,
                   items := [{ item_id := 1, quantity := 1, item_name := "Tape" },
                             { item_id := 1, quantity := 1, item_name := "Tape" }],
                   status := .pending, admin_notes := none }],
    issued_items := [], item_transfers := [], discarded_items := [],
    purchase_history := [] }

/-- Claim C4 counterexample: (1) approving a request whose lines repeat
an item is a sanctioned Ledger approval, yet it succeeds and drives the
quantity to -1 -- each availability check ran against the pre-approval
quantity 1 -- refuting the never-negative invariant; (2) the admin
stock-edit handler writes quantity directly (here to 42), refuting the
Ledger-exclusive-writer clause. -/
theorem ledger_invariants_counterexample :
    ((handleUpdateRequestStatus storeC4 5 .approved none none).2 = .ok ∧
     stockQty (handleUpdateRequestStatus storeC4 5 .approved none none).1 1 = -1) ∧
    stockQty (handleUpdateItem storeC4 1 "Tape" "Consumable" 42) 1 = 42 := by
  decide

end Stock
